import Mathlib

/-!
Verification of the `structinator_traits` conversion contract.

The repository (src/lib.rs) declares:
* `pub struct NamedField<I> { pub name: String, pub wrapped_value: I }`
* `pub trait SpecifyCreatableStruct: Sized` with associated types
  `InnerIteratorType` and `Error` and the single operation
  `fn create_struct(seed_iterator: &mut dyn Iterator<Item = NamedField<Self::InnerIteratorType>>)
      -> Result<Self, Self::Error>`.

The mutable iterator argument is embedded as a finite list of items
together with explicit state passing: an operation receives the list of
still-unconsumed items and returns, besides its `Except` result, the list
of items it did not consume (the iterator's position after the call).
Rust's `u8` and `u16` are embedded as `Fin 256` and `Fin 65536`; no
arithmetic is performed on them, they are only stored.
-/

/-- Embedding of `NamedField<I>` from src/lib.rs: a public `name` (text) paired
with a public `wrapped_value` of the generic type `I`. -/
structure NamedField (I : Type) where
  name : String
  wrapped_value : I
  deriving DecidableEq, Repr

/-- Embedding of the trait `SpecifyCreatableStruct` from src/lib.rs: an
implementation for a target type `T` supplies exactly the two associated
types `InnerIteratorType` and `Error` and the one operation
`create_struct`, which maps the unconsumed part of an iterator over
`NamedField InnerIteratorType` to a `Result<T, Error>` together with the
iterator's state after the call. -/
structure SpecifyCreatableStruct (T : Type) where
  InnerIteratorType : Type
  Error : Type
  create_struct : List (NamedField InnerIteratorType) →
    Except Error T × List (NamedField InnerIteratorType)

/-- Modelled from the spec: the tagged-union carrier `WaffleInfo` of the
end-to-end example in the doc comment of src/lib.rs (variants `Topping(u8)`
and `Layers(u16)`); the enum itself is declared in the example code, which
is a doc test of this repository, but its expansion lives in external
crates. -/
inductive WaffleInfo where
  | Topping : Fin 256 → WaffleInfo
  | Layers : Fin 65536 → WaffleInfo
  deriving DecidableEq, Repr

/-- Modelled from the spec: the target type `Waffles` of the end-to-end
example in the doc comment of src/lib.rs, with the three fields
`syrup_amount: u8`, `butter_amount: u8`, `layer_count: u16`. -/
structure Waffles where
  syrup_amount : Fin 256
  butter_amount : Fin 256
  layer_count : Fin 65536
  deriving DecidableEq, Repr

/-- Modelled from the spec: the error type of the reference implementation.
The spec imposes no taxonomy on `Error`; it lists "missing required field"
and "value type mismatch after unwrapping" as failure conditions, so the
model distinguishes those two. -/
inductive WafflesError where
  | missingField : WafflesError
  | wrongVariant : WafflesError
  deriving DecidableEq, Repr

deriving instance DecidableEq for Except

/-- Modelled from the spec: the private construction progress of the
reference implementation — "which fields are still unset" — tracked while
the input sequence is consumed. -/
structure PartialWaffles where
  syrup_amount : Option (Fin 256)
  butter_amount : Option (Fin 256)
  layer_count : Option (Fin 65536)
  deriving DecidableEq, Repr

/-- Modelled from the spec: processing of a single `NamedField` item by the
reference implementation — "look up a field by name and assign it". A
recognized name whose wrapped value unwraps to the declared field type
updates that field (overwriting an earlier assignment, so the last write
wins); a recognized name with the wrong variant is a value type mismatch
and fails; an unrecognized name is ignored. -/
def assignField (s : PartialWaffles) (f : NamedField WaffleInfo) :
    Except WafflesError PartialWaffles :=
  if f.name = "syrup_amount" then
    match f.wrapped_value with
    | .Topping v => .ok ⟨some v, s.butter_amount, s.layer_count⟩
    | .Layers _ => .error .wrongVariant
  else if f.name = "butter_amount" then
    match f.wrapped_value with
    | .Topping v => .ok ⟨s.syrup_amount, some v, s.layer_count⟩
    | .Layers _ => .error .wrongVariant
  else if f.name = "layer_count" then
    match f.wrapped_value with
    | .Layers v => .ok ⟨s.syrup_amount, s.butter_amount, some v⟩
    | .Topping _ => .error .wrongVariant
  else
    .ok s

/-- Modelled from the spec: the consumption loop of the reference
implementation. Items are consumed lazily, one at a time; on the first
failing item the loop short-circuits, leaving the rest of the iterator
unconsumed (the second component is the iterator's remaining items). -/
def fillFields : PartialWaffles → List (NamedField WaffleInfo) →
    Except WafflesError PartialWaffles × List (NamedField WaffleInfo)
  | s, [] => (.ok s, [])
  | s, f :: rest =>
    match assignField s f with
    | .ok s' => fillFields s' rest
    | .error e => (.error e, rest)

/-- Modelled from the spec: `create_struct` of the reference implementation
for `Waffles` (the doc-comment example of src/lib.rs relies on the external
macro expansion of exactly this function). It consumes the input sequence,
assigning fields by name, and succeeds only if every field was assigned;
otherwise it returns the declared error, never a partially initialized
value. -/
def Waffles.create_struct (l : List (NamedField WaffleInfo)) :
    Except WafflesError Waffles × List (NamedField WaffleInfo) :=
  match fillFields ⟨none, none, none⟩ l with
  | (.ok s, rem) =>
    match s.syrup_amount, s.butter_amount, s.layer_count with
    | some a, some b, some c => (.ok ⟨a, b, c⟩, rem)
    | _, _, _ => (.error .missingField, rem)
  | (.error e, rem) => (.error e, rem)

/-- The `Waffles` example is an implementation of the embedded trait. -/
def Waffles.instCreatable : SpecifyCreatableStruct Waffles :=
  ⟨WaffleInfo, WafflesError, Waffles.create_struct⟩

/-- Item of the doc example supplying `syrup_amount` (wrapped as `Topping`). -/
def syrupItem (a : Fin 256) : NamedField WaffleInfo :=
  ⟨"syrup_amount", .Topping a⟩

/-- Item of the doc example supplying `butter_amount` (wrapped as `Topping`). -/
def butterItem (b : Fin 256) : NamedField WaffleInfo :=
  ⟨"butter_amount", .Topping b⟩

/-- Item of the doc example supplying `layer_count` (wrapped as `Layers`). -/
def layerItem (c : Fin 65536) : NamedField WaffleInfo :=
  ⟨"layer_count", .Layers c⟩

/-- If no item of the input names `syrup_amount`, that field of the
construction state is never written. -/
theorem fill_none_syrup : ∀ (l : List (NamedField WaffleInfo)) (s s' : PartialWaffles),
    (∀ f ∈ l, f.name ≠ "syrup_amount") → (fillFields s l).1 = .ok s' →
    s'.syrup_amount = s.syrup_amount := by
  intro l
  induction l with
  | nil =>
    intro s s' _ hok
    simp [fillFields] at hok
    rw [hok]
  | cons f t ih =>
    intro s s' hnone hok
    have hf : ¬f.name = "syrup_amount" := hnone f (List.mem_cons_self f t)
    have ht : ∀ g ∈ t, g.name ≠ "syrup_amount" :=
      fun g hg => hnone g (List.mem_cons_of_mem f hg)
    by_cases hb : f.name = "butter_amount"
    · rcases hv : f.wrapped_value with v | v
      · simp only [fillFields, assignField, if_neg hf, if_pos hb, hv] at hok
        exact ih ⟨s.syrup_amount, some v, s.layer_count⟩ s' ht hok
      · simp [fillFields, assignField, hf, hb, hv] at hok
    · by_cases hl : f.name = "layer_count"
      · rcases hv : f.wrapped_value with v | v
        · simp [fillFields, assignField, hf, hb, hl, hv] at hok
        · simp only [fillFields, assignField, if_neg hf, if_neg hb, if_pos hl, hv] at hok
          exact ih ⟨s.syrup_amount, s.butter_amount, some v⟩ s' ht hok
      · simp only [fillFields, assignField, if_neg hf, if_neg hb, if_neg hl] at hok
        exact ih _ _ ht hok

/-- If no item of the input names `butter_amount`, that field of the
construction state is never written. -/
theorem fill_none_butter : ∀ (l : List (NamedField WaffleInfo)) (s s' : PartialWaffles),
    (∀ f ∈ l, f.name ≠ "butter_amount") → (fillFields s l).1 = .ok s' →
    s'.butter_amount = s.butter_amount := by
  intro l
  induction l with
  | nil =>
    intro s s' _ hok
    simp [fillFields] at hok
    rw [hok]
  | cons f t ih =>
    intro s s' hnone hok
    have hb : ¬f.name = "butter_amount" := hnone f (List.mem_cons_self f t)
    have ht : ∀ g ∈ t, g.name ≠ "butter_amount" :=
      fun g hg => hnone g (List.mem_cons_of_mem f hg)
    by_cases hf : f.name = "syrup_amount"
    · rcases hv : f.wrapped_value with v | v
      · simp only [fillFields, assignField, if_pos hf, hv] at hok
        exact ih ⟨some v, s.butter_amount, s.layer_count⟩ s' ht hok
      · simp [fillFields, assignField, hf, hv] at hok
    · by_cases hl : f.name = "layer_count"
      · rcases hv : f.wrapped_value with v | v
        · simp [fillFields, assignField, hf, hb, hl, hv] at hok
        · simp only [fillFields, assignField, if_neg hf, if_neg hb, if_pos hl, hv] at hok
          exact ih ⟨s.syrup_amount, s.butter_amount, some v⟩ s' ht hok
      · simp only [fillFields, assignField, if_neg hf, if_neg hb, if_neg hl] at hok
        exact ih _ _ ht hok

/-- If no item of the input names `layer_count`, that field of the
construction state is never written. -/
theorem fill_none_layer : ∀ (l : List (NamedField WaffleInfo)) (s s' : PartialWaffles),
    (∀ f ∈ l, f.name ≠ "layer_count") → (fillFields s l).1 = .ok s' →
    s'.layer_count = s.layer_count := by
  intro l
  induction l with
  | nil =>
    intro s s' _ hok
    simp [fillFields] at hok
    rw [hok]
  | cons f t ih =>
    intro s s' hnone hok
    have hl : ¬f.name = "layer_count" := hnone f (List.mem_cons_self f t)
    have ht : ∀ g ∈ t, g.name ≠ "layer_count" :=
      fun g hg => hnone g (List.mem_cons_of_mem f hg)
    by_cases hf : f.name = "syrup_amount"
    · rcases hv : f.wrapped_value with v | v
      · simp only [fillFields, assignField, if_pos hf, hv] at hok
        exact ih ⟨some v, s.butter_amount, s.layer_count⟩ s' ht hok
      · simp [fillFields, assignField, hf, hv] at hok
    · by_cases hb : f.name = "butter_amount"
      · rcases hv : f.wrapped_value with v | v
        · simp only [fillFields, assignField, if_neg hf, if_pos hb, hv] at hok
          exact ih ⟨s.syrup_amount, some v, s.layer_count⟩ s' ht hok
        · simp [fillFields, assignField, hf, hb, hv] at hok
      · simp only [fillFields, assignField, if_neg hf, if_neg hb, if_neg hl] at hok
        exact ih _ _ ht hok

/-- C2: for a target type with required fields (the reference `Waffles`
implementation), any input sequence that lacks at least one required field
name — the empty sequence included — makes `create_struct` return an
error, never a partially or default-initialized success value. -/
theorem C2_missing_field_error (l : List (NamedField WaffleInfo))
    (h : (∀ f ∈ l, f.name ≠ "syrup_amount") ∨ (∀ f ∈ l, f.name ≠ "butter_amount") ∨
      (∀ f ∈ l, f.name ≠ "layer_count")) :
    ∃ e, (Waffles.create_struct l).1 = .error e := by
  rcases hres : fillFields ⟨none, none, none⟩ l with ⟨r, rem⟩
  rcases r with e | s
  · exact ⟨e, by simp [Waffles.create_struct, hres]⟩
  · obtain ⟨so, bo, lo⟩ := s
    have hok : (fillFields ⟨none, none, none⟩ l).1 = .ok ⟨so, bo, lo⟩ := by rw [hres]
    refine ⟨.missingField, ?_⟩
    rcases h with h | h | h
    · have hnone : so = none := fill_none_syrup l ⟨none, none, none⟩ ⟨so, bo, lo⟩ h hok
      subst hnone
      rcases bo with _ | b <;> rcases lo with _ | c <;> simp [Waffles.create_struct, hres]
    · have hnone : bo = none := fill_none_butter l ⟨none, none, none⟩ ⟨so, bo, lo⟩ h hok
      subst hnone
      rcases so with _ | a <;> rcases lo with _ | c <;> simp [Waffles.create_struct, hres]
    · have hnone : lo = none := fill_none_layer l ⟨none, none, none⟩ ⟨so, bo, lo⟩ h hok
      subst hnone
      rcases so with _ | a <;> rcases bo with _ | b <;> simp [Waffles.create_struct, hres]

/-- Witness for C2 at the empty input sequence. -/
theorem C2_missing_field_error_witness :
    ∃ e, (Waffles.create_struct []).1 = .error e :=
  C2_missing_field_error [] (Or.inl (by simp))

/-- A complete, duplicate-free input for the example type, in any order,
constructs exactly the struct assembled from the three supplied payloads. -/
theorem create_struct_perm_ok (a b : Fin 256) (c : Fin 65536)
    (l : List (NamedField WaffleInfo))
    (h : l.Perm [syrupItem a, butterItem b, layerItem c]) :
    (Waffles.create_struct l).1 = .ok ⟨a, b, c⟩ := by
  have hlen : l.length = 3 := by simpa using h.length_eq
  obtain ⟨x, y, z, rfl⟩ := List.length_eq_three.mp hlen
  have hx : x = syrupItem a ∨ x = butterItem b ∨ x = layerItem c := by
    simpa using h.mem_iff.mp (show x ∈ [x, y, z] by simp)
  rcases hx with rfl | rfl | rfl
  · have h1 : [y, z].Perm [butterItem b, layerItem c] := h.cons_inv
    have hy : y = butterItem b ∨ y = layerItem c := by
      simpa using h1.mem_iff.mp (show y ∈ [y, z] by simp)
    rcases hy with rfl | rfl
    · have hz : z = layerItem c := by simpa using List.perm_singleton.mp h1.cons_inv
      subst hz
      simp [Waffles.create_struct, fillFields, assignField, syrupItem, butterItem, layerItem]
    · have h2 : [layerItem c, z].Perm [layerItem c, butterItem b] :=
        h1.trans (List.Perm.swap (layerItem c) (butterItem b) [])
      have hz : z = butterItem b := by simpa using List.perm_singleton.mp h2.cons_inv
      subst hz
      simp [Waffles.create_struct, fillFields, assignField, syrupItem, butterItem, layerItem]
  · have h1 : [butterItem b, y, z].Perm [butterItem b, syrupItem a, layerItem c] :=
      h.trans (List.Perm.swap (butterItem b) (syrupItem a) [layerItem c])
    have h2 : [y, z].Perm [syrupItem a, layerItem c] := h1.cons_inv
    have hy : y = syrupItem a ∨ y = layerItem c := by
      simpa using h2.mem_iff.mp (show y ∈ [y, z] by simp)
    rcases hy with rfl | rfl
    · have hz : z = layerItem c := by simpa using List.perm_singleton.mp h2.cons_inv
      subst hz
      simp [Waffles.create_struct, fillFields, assignField, syrupItem, butterItem, layerItem]
    · have h3 : [layerItem c, z].Perm [layerItem c, syrupItem a] :=
        h2.trans (List.Perm.swap (layerItem c) (syrupItem a) [])
      have hz : z = syrupItem a := by simpa using List.perm_singleton.mp h3.cons_inv
      subst hz
      simp [Waffles.create_struct, fillFields, assignField, syrupItem, butterItem, layerItem]
  · have p1 : [syrupItem a, butterItem b, layerItem c].Perm
        [syrupItem a, layerItem c, butterItem b] :=
      List.Perm.cons (syrupItem a) (List.Perm.swap (layerItem c) (butterItem b) [])
    have p2 : [syrupItem a, layerItem c, butterItem b].Perm
        [layerItem c, syrupItem a, butterItem b] :=
      List.Perm.swap (layerItem c) (syrupItem a) [butterItem b]
    have h1 : [layerItem c, y, z].Perm [layerItem c, syrupItem a, butterItem b] :=
      h.trans (p1.trans p2)
    have h2 : [y, z].Perm [syrupItem a, butterItem b] := h1.cons_inv
    have hy : y = syrupItem a ∨ y = butterItem b := by
      simpa using h2.mem_iff.mp (show y ∈ [y, z] by simp)
    rcases hy with rfl | rfl
    · have hz : z = butterItem b := by simpa using List.perm_singleton.mp h2.cons_inv
      subst hz
      simp [Waffles.create_struct, fillFields, assignField, syrupItem, butterItem, layerItem]
    · have h3 : [butterItem b, z].Perm [butterItem b, syrupItem a] :=
        h2.trans (List.Perm.swap (butterItem b) (syrupItem a) [])
      have hz : z = syrupItem a := by simpa using List.perm_singleton.mp h3.cons_inv
      subst hz
      simp [Waffles.create_struct, fillFields, assignField, syrupItem, butterItem, layerItem]

/-- C1: for the reference implementation of the conversion capability, every
complete, duplicate-free input sequence whose names match the target's
fields exactly — i.e. every permutation of one item per field — makes
`create_struct` succeed, and each field of the result equals the payload
supplied under that field's name, independently of input order. -/
theorem C1_order_independence (a b : Fin 256) (c : Fin 65536)
    (l : List (NamedField WaffleInfo))
    (h : l.Perm [syrupItem a, butterItem b, layerItem c]) :
    ∃ w : Waffles, (Waffles.create_struct l).1 = .ok w ∧
      w.syrup_amount = a ∧ w.butter_amount = b ∧ w.layer_count = c :=
  ⟨⟨a, b, c⟩, create_struct_perm_ok a b c l h, rfl, rfl, rfl⟩

/-- Witness for C1 at a concrete reordered input. -/
theorem C1_order_independence_witness :
    ∃ w : Waffles,
      (Waffles.create_struct [layerItem 3, syrupItem 1, butterItem 2]).1 = .ok w ∧
      w.syrup_amount = 1 ∧ w.butter_amount = 2 ∧ w.layer_count = 3 :=
  C1_order_independence 1 2 3 [layerItem 3, syrupItem 1, butterItem 2] (by decide)

/-- C3: the end-to-end doc example — three items carrying `Topping 4` for
`syrup_amount`, `Topping 44` for `butter_amount`, `Layers 444` for
`layer_count`, in any input order — succeeds, and the constructed instance
has `syrup_amount = 4`, `butter_amount = 44`, `layer_count = 444`. -/
theorem C3_waffles_example (l : List (NamedField WaffleInfo))
    (h : l.Perm [syrupItem 4, butterItem 44, layerItem 444]) :
    ∃ w : Waffles, (Waffles.create_struct l).1 = .ok w ∧
      w.syrup_amount = 4 ∧ w.butter_amount = 44 ∧ w.layer_count = 444 :=
  ⟨⟨4, 44, 444⟩, create_struct_perm_ok 4 44 444 l h, rfl, rfl, rfl⟩

/-- Witness for C3 at the input order of the doc-comment example. -/
theorem C3_waffles_example_witness :
    ∃ w : Waffles,
      (Waffles.create_struct [butterItem 44, layerItem 444, syrupItem 4]).1 = .ok w ∧
      w.syrup_amount = 4 ∧ w.butter_amount = 44 ∧ w.layer_count = 444 :=
  C3_waffles_example [butterItem 44, layerItem 444, syrupItem 4] (by decide)

/-- C4: the conversion capability exposes exactly its two associated types
and its one operation (every implementation record is nothing but those
three components), and every call of the operation ends in exactly one of
the two terminal outcomes — a constructed value of the implementing type or
a value of the declared error type — never both, never anything else. -/
theorem C4_two_terminal_outcomes (T : Type) (inst : SpecifyCreatableStruct T)
    (l : List (NamedField inst.InnerIteratorType)) :
    inst = ⟨inst.InnerIteratorType, inst.Error, inst.create_struct⟩ ∧
    (((∃ t, (inst.create_struct l).1 = .ok t) ∧ ¬(∃ e, (inst.create_struct l).1 = .error e)) ∨
     ((∃ e, (inst.create_struct l).1 = .error e) ∧ ¬(∃ t, (inst.create_struct l).1 = .ok t))) := by
  refine ⟨rfl, ?_⟩
  rcases hr : (inst.create_struct l).1 with e | t
  · refine Or.inr ⟨⟨e, rfl⟩, ?_⟩
    rintro ⟨t, ht⟩
    exact Except.noConfusion ht
  · refine Or.inl ⟨⟨t, rfl⟩, ?_⟩
    rintro ⟨e, he⟩
    exact Except.noConfusion he

/-- C5: the capability is stateless — `create_struct` is a pure function of
the input sequence alone, so two calls on equal inputs return equal
results, for every implementing type. -/
theorem C5_stateless_deterministic (T : Type) (inst : SpecifyCreatableStruct T)
    (l₁ l₂ : List (NamedField inst.InnerIteratorType)) (h : l₁ = l₂) :
    inst.create_struct l₁ = inst.create_struct l₂ := by
  rw [h]

/-- Witness for C5 at the `Waffles` implementation on a concrete input. -/
theorem C5_stateless_deterministic_witness :
    Waffles.instCreatable.create_struct [syrupItem 1] =
    Waffles.instCreatable.create_struct [syrupItem 1] :=
  C5_stateless_deterministic Waffles Waffles.instCreatable [syrupItem 1] [syrupItem 1] rfl

/-- C7: a `NamedField` is exactly a free-form `name` together with a
`wrapped_value` of the generic type, with no structural invariant: every
combination of a string and a value is a valid `NamedField`, and every
`NamedField` is nothing but its two public fields. -/
theorem C7_namedfield_no_invariant (I : Type) (n : String) (v : I) :
    ((NamedField.mk n v).name = n ∧ (NamedField.mk n v).wrapped_value = v) ∧
    (∀ f : NamedField I, f = ⟨f.name, f.wrapped_value⟩) :=
  ⟨⟨rfl, rfl⟩, fun _ => rfl⟩

/-- The remaining iterator returned by the consumption loop is the input
advanced by the number of consumed items. -/
theorem fill_rem_drop : ∀ (l : List (NamedField WaffleInfo)) (s : PartialWaffles),
    ∃ k, (fillFields s l).2 = l.drop k := by
  intro l
  induction l with
  | nil => intro s; exact ⟨0, rfl⟩
  | cons f t ih =>
    intro s
    rcases ha : assignField s f with e | s'
    · exact ⟨1, by simp [fillFields, ha]⟩
    · obtain ⟨k, hk⟩ := ih s'
      exact ⟨k + 1, by simp [fillFields, ha, hk]⟩

/-- `create_struct` leaves the iterator exactly where the consumption loop
left it. -/
theorem create_struct_rem (l : List (NamedField WaffleInfo)) :
    (Waffles.create_struct l).2 = (fillFields ⟨none, none, none⟩ l).2 := by
  rcases hres : fillFields ⟨none, none, none⟩ l with ⟨r, rem⟩
  rcases r with e | s
  · simp [Waffles.create_struct, hres]
  · obtain ⟨so, bo, lo⟩ := s
    rcases so with _ | a <;> rcases bo with _ | b <;> rcases lo with _ | c <;>
      simp [Waffles.create_struct, hres]

/-- C6: a call of `create_struct` has no effect other than consuming input
items: it is a pure function of the input sequence, and the iterator state
it hands back is exactly the input sequence advanced by some number of
consumed items. -/
theorem C6_no_side_effects (l : List (NamedField WaffleInfo)) :
    ∃ k, (Waffles.create_struct l).2 = List.drop k l := by
  obtain ⟨k, hk⟩ := fill_rem_drop l ⟨none, none, none⟩
  exact ⟨k, by rw [create_struct_rem, hk]⟩

/-- C9: the caller keeps the iterator after the call: when `create_struct`
fails short of the end, the items the implementation did not consume are
still in the iterator handed back to the caller — the input is the consumed
prefix followed by exactly those remaining items. -/
theorem C9_caller_retains_iterator (l : List (NamedField WaffleInfo))
    (e : WafflesError) (rem : List (NamedField WaffleInfo))
    (h : Waffles.create_struct l = (.error e, rem)) :
    ∃ consumed, consumed ++ rem = l := by
  obtain ⟨k, hk⟩ := fill_rem_drop l ⟨none, none, none⟩
  have h2 : rem = List.drop k l := by
    have hcr := create_struct_rem l
    rw [h] at hcr
    simpa [hk] using hcr
  exact ⟨List.take k l, by rw [h2]; exact List.take_append_drop k l⟩

/-- Witness for C9: a type mismatch on the first item short-circuits and the
second item remains available. -/
theorem C9_caller_retains_iterator_witness :
    ∃ consumed, consumed ++ [butterItem 1] =
      [(⟨"syrup_amount", .Layers 7⟩ : NamedField WaffleInfo), butterItem 1] :=
  C9_caller_retains_iterator
    [(⟨"syrup_amount", .Layers 7⟩ : NamedField WaffleInfo), butterItem 1]
    .wrongVariant [butterItem 1] (by decide)

/-- Consuming a prefix that succeeds and then the rest is consuming the
concatenation. -/
theorem fill_append_ok : ∀ (p : List (NamedField WaffleInfo)) (s s' : PartialWaffles)
    (rem l : List (NamedField WaffleInfo)),
    fillFields s p = (.ok s', rem) → fillFields s (p ++ l) = fillFields s' l := by
  intro p
  induction p with
  | nil =>
    intro s s' rem l h
    simp [fillFields] at h
    rw [List.nil_append, h.1]
  | cons f t ih =>
    intro s s' rem l h
    rcases ha : assignField s f with e | s₁
    · simp only [fillFields, ha] at h
      simp at h
    · simp only [fillFields, ha] at h
      simp only [List.cons_append, fillFields, ha]
      exact ih s₁ s' rem l h

/-- A failing prefix short-circuits consumption of the concatenation. -/
theorem fill_append_err : ∀ (p : List (NamedField WaffleInfo)) (s : PartialWaffles)
    (e : WafflesError) (rem l : List (NamedField WaffleInfo)),
    fillFields s p = (.error e, rem) → fillFields s (p ++ l) = (.error e, rem ++ l) := by
  intro p
  induction p with
  | nil =>
    intro s e rem l h
    simp [fillFields] at h
  | cons f t ih =>
    intro s e rem l h
    rcases ha : assignField s f with e' | s₁
    · simp only [fillFields, ha] at h
      injection h with h1 h2
      injection h1 with h1
      subst h1
      subst h2
      rw [List.cons_append]
      simp [fillFields, ha]
    · simp only [fillFields, ha] at h
      simp only [List.cons_append, fillFields, ha]
      exact ih s₁ e rem l h

/-- An initial value of the `syrup_amount` slot is irrelevant once some item
of the input assigns that field. -/
theorem fill_overwrite_syrup (so w : Option (Fin 256)) :
    ∀ (l : List (NamedField WaffleInfo)) (bo : Option (Fin 256)) (lo : Option (Fin 65536)),
      (∃ g ∈ l, g.name = "syrup_amount") →
      (fillFields ⟨w, bo, lo⟩ l).1 = (fillFields ⟨so, bo, lo⟩ l).1 := by
  intro l
  induction l with
  | nil =>
    intro bo lo h
    simp at h
  | cons f t ih =>
    intro bo lo h
    by_cases hf : f.name = "syrup_amount"
    · rcases hv : f.wrapped_value with v | v
      · simp [fillFields, assignField, hf, hv]
      · simp [fillFields, assignField, hf, hv]
    · obtain ⟨g, hg, hgn⟩ := h
      rcases List.mem_cons.mp hg with rfl | hgt
      · exact absurd hgn hf
      · by_cases hb : f.name = "butter_amount"
        · rcases hv : f.wrapped_value with v | v
          · simpa [fillFields, assignField, hf, hb, hv] using ih (some v) lo ⟨g, hgt, hgn⟩
          · simp [fillFields, assignField, hf, hb, hv]
        · by_cases hl : f.name = "layer_count"
          · rcases hv : f.wrapped_value with v | v
            · simp [fillFields, assignField, hf, hb, hl, hv]
            · simpa [fillFields, assignField, hf, hb, hl, hv] using ih bo (some v) ⟨g, hgt, hgn⟩
          · simpa [fillFields, assignField, hf, hb, hl] using ih bo lo ⟨g, hgt, hgn⟩

/-- An initial value of the `butter_amount` slot is irrelevant once some item
of the input assigns that field. -/
theorem fill_overwrite_butter (bo w : Option (Fin 256)) :
    ∀ (l : List (NamedField WaffleInfo)) (so : Option (Fin 256)) (lo : Option (Fin 65536)),
      (∃ g ∈ l, g.name = "butter_amount") →
      (fillFields ⟨so, w, lo⟩ l).1 = (fillFields ⟨so, bo, lo⟩ l).1 := by
  intro l
  induction l with
  | nil =>
    intro so lo h
    simp at h
  | cons f t ih =>
    intro so lo h
    by_cases hb : f.name = "butter_amount"
    · by_cases hf : f.name = "syrup_amount"
      · rw [hf] at hb
        exact absurd hb.symm (by decide)
      · rcases hv : f.wrapped_value with v | v
        · simp [fillFields, assignField, hf, hb, hv]
        · simp [fillFields, assignField, hf, hb, hv]
    · obtain ⟨g, hg, hgn⟩ := h
      rcases List.mem_cons.mp hg with rfl | hgt
      · exact absurd hgn hb
      · by_cases hf : f.name = "syrup_amount"
        · rcases hv : f.wrapped_value with v | v
          · simpa [fillFields, assignField, hf, hv] using ih (some v) lo ⟨g, hgt, hgn⟩
          · simp [fillFields, assignField, hf, hv]
        · by_cases hl : f.name = "layer_count"
          · rcases hv : f.wrapped_value with v | v
            · simp [fillFields, assignField, hf, hb, hl, hv]
            · simpa [fillFields, assignField, hf, hb, hl, hv] using ih so (some v) ⟨g, hgt, hgn⟩
          · simpa [fillFields, assignField, hf, hb, hl] using ih so lo ⟨g, hgt, hgn⟩

/-- An initial value of the `layer_count` slot is irrelevant once some item
of the input assigns that field. -/
theorem fill_overwrite_layer (lo w : Option (Fin 65536)) :
    ∀ (l : List (NamedField WaffleInfo)) (so bo : Option (Fin 256)),
      (∃ g ∈ l, g.name = "layer_count") →
      (fillFields ⟨so, bo, w⟩ l).1 = (fillFields ⟨so, bo, lo⟩ l).1 := by
  intro l
  induction l with
  | nil =>
    intro so bo h
    simp at h
  | cons f t ih =>
    intro so bo h
    by_cases hl : f.name = "layer_count"
    · by_cases hf : f.name = "syrup_amount"
      · rw [hf] at hl
        exact absurd hl.symm (by decide)
      · by_cases hb : f.name = "butter_amount"
        · rw [hb] at hl
          exact absurd hl.symm (by decide)
        · rcases hv : f.wrapped_value with v | v
          · simp [fillFields, assignField, hf, hb, hl, hv]
          · simp [fillFields, assignField, hf, hb, hl, hv]
    · obtain ⟨g, hg, hgn⟩ := h
      rcases List.mem_cons.mp hg with rfl | hgt
      · exact absurd hgn hl
      · by_cases hf : f.name = "syrup_amount"
        · rcases hv : f.wrapped_value with v | v
          · simpa [fillFields, assignField, hf, hv] using ih (some v) bo ⟨g, hgt, hgn⟩
          · simp [fillFields, assignField, hf, hv]
        · by_cases hb : f.name = "butter_amount"
          · rcases hv : f.wrapped_value with v | v
            · simpa [fillFields, assignField, hf, hb, hv] using ih so (some v) ⟨g, hgt, hgn⟩
            · simp [fillFields, assignField, hf, hb, hv]
          · simpa [fillFields, assignField, hf, hb, hl] using ih so bo ⟨g, hgt, hgn⟩

/-- Inputs on which the consumption loop computes the same result are mapped
by `create_struct` to the same result. -/
theorem create_first (l l' : List (NamedField WaffleInfo))
    (h : (fillFields ⟨none, none, none⟩ l).1 = (fillFields ⟨none, none, none⟩ l').1) :
    (Waffles.create_struct l).1 = (Waffles.create_struct l').1 := by
  rcases h1 : fillFields ⟨none, none, none⟩ l with ⟨r, rem⟩
  rcases h2 : fillFields ⟨none, none, none⟩ l' with ⟨r', rem'⟩
  rw [h1, h2] at h
  simp at h
  subst h
  rcases r with e | s
  · simp [Waffles.create_struct, h1, h2]
  · obtain ⟨so, bo, lo⟩ := s
    rcases so with _ | a <;> rcases bo with _ | b <;> rcases lo with _ | c <;>
      simp [Waffles.create_struct, h1, h2]

/-- C8: the reference implementation has one fixed duplicate-name policy,
uniform across all inputs — last write wins: an earlier, well-formed item
supplied under the same name as a later item never influences the result,
whatever surrounds the pair. -/
theorem C8_duplicate_last_write_wins (pre mid post : List (NamedField WaffleInfo))
    (f g : NamedField WaffleInfo) (hname : f.name = g.name)
    (hok : ∀ s : PartialWaffles, ∃ s', assignField s f = .ok s') :
    (Waffles.create_struct (pre ++ f :: (mid ++ g :: post))).1 =
    (Waffles.create_struct (pre ++ (mid ++ g :: post))).1 := by
  apply create_first
  rcases hp : fillFields ⟨none, none, none⟩ pre with ⟨r, rem⟩
  rcases r with e | s₀
  · have e1 := fill_append_err pre ⟨none, none, none⟩ e rem (f :: (mid ++ g :: post)) hp
    have e2 := fill_append_err pre ⟨none, none, none⟩ e rem (mid ++ g :: post) hp
    rw [e1, e2]
  · have o1 := fill_append_ok pre ⟨none, none, none⟩ s₀ rem (f :: (mid ++ g :: post)) hp
    have o2 := fill_append_ok pre ⟨none, none, none⟩ s₀ rem (mid ++ g :: post) hp
    rw [o1, o2]
    obtain ⟨s₁, hs₁⟩ := hok s₀
    obtain ⟨so, bo, lo⟩ := s₀
    by_cases hf : f.name = "syrup_amount"
    · rcases hv : f.wrapped_value with v | v
      · simp only [fillFields, assignField, if_pos hf, hv]
        exact fill_overwrite_syrup so (some v) (mid ++ g :: post) bo lo
          ⟨g, by simp, hname ▸ hf⟩
      · simp [assignField, hf, hv] at hs₁
    · by_cases hb : f.name = "butter_amount"
      · rcases hv : f.wrapped_value with v | v
        · simp only [fillFields, assignField, if_neg hf, if_pos hb, hv]
          exact fill_overwrite_butter bo (some v) (mid ++ g :: post) so lo
            ⟨g, by simp, hname ▸ hb⟩
        · simp [assignField, hf, hb, hv] at hs₁
      · by_cases hl : f.name = "layer_count"
        · rcases hv : f.wrapped_value with v | v
          · simp [assignField, hf, hb, hl, hv] at hs₁
          · simp only [fillFields, assignField, if_neg hf, if_neg hb, if_pos hl, hv]
            exact fill_overwrite_layer lo (some v) (mid ++ g :: post) so bo
              ⟨g, by simp, hname ▸ hl⟩
        · simp [fillFields, assignField, hf, hb, hl]

/-- Witness for C8: an overwritten earlier `syrup_amount` item is discarded
and the later one wins. -/
theorem C8_duplicate_last_write_wins_witness :
    (Waffles.create_struct [syrupItem 1, syrupItem 2, butterItem 5, layerItem 7]).1 =
    (Waffles.create_struct [syrupItem 2, butterItem 5, layerItem 7]).1 :=
  C8_duplicate_last_write_wins [] [] [butterItem 5, layerItem 7]
    (syrupItem 1) (syrupItem 2) rfl
    (fun s => ⟨⟨some 1, s.butter_amount, s.layer_count⟩, by simp [assignField, syrupItem]⟩)
